import Mathlib

/-!
Verification of the SOC-Automation-Toolkit log-normalization pipeline.

This file gives a shallow embedding, in Lean 4, of the repository's two
source modules:

* `src/parser.py` — the two field normalizers (`normalizar_timestamp`,
  `normalizar_severity`) and the five format parsers (`procesar_csv`,
  `procesar_csv_windows`, `procesar_json`, `procesar_syslog`,
  `procesar_evtx`);
* `src/main.py` — the ingestion coordinator step of `menu_ingesta`
  (stamping parsed events with a format tag and appending them to the
  caller's running collection).

Python dynamic values are embedded as the inductive type `PyVal`; Python
exceptions that can escape a modelled expression are embedded with
`Except PyErr`.  Standard-library behaviour the code relies on
(`int(...)`, `str.strip`, `str.replace`, `csv.DictReader`, `json.loads`,
`re.match`, `datetime.fromisoformat`, `datetime.strptime`,
`xml.etree.ElementTree.findtext`) is modelled function by function next
to its first use; each model's doc comment records the subset of the
library behaviour it captures (ASCII character classes stand in for the
unicode ones, and decimal floating literals are modelled as exact
rationals, since no claim depends on IEEE rounding).
-/

set_option autoImplicit false

namespace SocToolkit

/-- ASCII model of Python's whitespace class (used by `str.strip`,
`\s` in regular expressions, and `int(str)` whitespace stripping). -/
def pyIsSpace (c : Char) : Bool :=
  c = ' ' || c = '\t' || c = '\n' || c = '\r' || c = '\x0b' || c = '\x0c'

/-- ASCII decimal digit test (model of `str.isdigit` / `\d` on ASCII input). -/
def pyIsDigit (c : Char) : Bool :=
  '0' ≤ c && c ≤ '9'

/-- Numeric value of an ASCII digit character. -/
def digitVal (c : Char) : Nat :=
  c.toNat - '0'.toNat

/-- Model of Python `str.strip()` (no arguments): remove leading and
trailing whitespace. -/
def pyStripChars (cs : List Char) : List Char :=
  ((cs.dropWhile pyIsSpace).reverse.dropWhile pyIsSpace).reverse

/-- Model of Python `str.strip()` on `String`s. -/
def pyStrip (s : String) : String :=
  String.mk (pyStripChars s.data)

/-- Decidable equality for `Except`, used to evaluate the embedded
fallible computations on concrete inputs. -/
instance instDecEqExcept {ε α : Type} [DecidableEq ε] [DecidableEq α] :
    DecidableEq (Except ε α) := fun x y =>
  match x, y with
  | .ok a, .ok b =>
    if h : a = b then isTrue (by rw [h])
    else isFalse (fun hc => h (Except.ok.inj hc))
  | .error a, .error b =>
    if h : a = b then isTrue (by rw [h])
    else isFalse (fun hc => h (Except.error.inj hc))
  | .ok _, .error _ => isFalse (fun hc => Except.noConfusion hc)
  | .error _, .ok _ => isFalse (fun hc => Except.noConfusion hc)

/-- The Python exception classes that can escape the modelled expressions
of this code base (everything else is caught where it is raised). -/
inductive PyErr where
  /-- The error `AttributeError`, from calling `.get` / `.replace` on a value that
  has no such method. -/
  | attributeError
  /-- The error `OverflowError`, from `int()` applied to an infinite float. -/
  | overflowError
  /-- The error `KeyError`, from `xml.etree.ElementPath`'s operator table when a
  path contains an attribute step `@...` (unsupported in ElementTree). -/
  | keyError
  deriving DecidableEq, Repr

/-- Embedding of the Python values that flow through the parsers: `None`,
booleans, arbitrary-precision integers, strings, floats (an exact
rational `num / den` models the decimal literal; `pnan` / `pinf` are the
non-finite floats), lists and string-keyed dicts.  Lists and dicts are
given as explicit cons cells (`listCons` / `dictCons`) rather than
through `List`, so that the type is not a nested inductive and decidable
equality is structural; a dict chain records its key-value pairs in
insertion order. -/
inductive PyVal where
  | none
  | bool (b : Bool)
  | int (n : Int)
  | str (s : String)
  | pfloat (num : Int) (den : Nat)
  | pnan
  | pinf (neg : Bool)
  | listNil
  | listCons (head : PyVal) (tail : PyVal)
  | dictNil
  | dictCons (key : String) (val : PyVal) (tail : PyVal)
  deriving DecidableEq, Repr

/-- Python truthiness (`bool(v)`) for the embedded values (a list or
dict is truthy when non-empty). -/
def pyTruthy : PyVal → Bool
  | .none => false
  | .bool b => b
  | .int n => n ≠ 0
  | .str s => s ≠ ""
  | .pfloat num _ => num ≠ 0
  | .pnan => true
  | .pinf _ => true
  | .listNil => false
  | .listCons _ _ => true
  | .dictNil => false
  | .dictCons _ _ _ => true

/-- Lookup in a dict chain, the LAST binding of a key winning — the
overwrite semantics of repeated insertions into a Python dict (later
pairs in `dict(zip(...))` and later keys in a decoded JSON object
override earlier ones). -/
def dictLookup : PyVal → String → Option PyVal
  | .dictCons k1 v1 rest, k =>
    match dictLookup rest k with
    | some r => some r
    | Option.none => if k1 = k then some v1 else Option.none
  | _, _ => Option.none

/-- Model of Python `v.get(k, default)`: on a dict it never raises and
returns the stored value or the default; on any non-dict value the
attribute access `.get` raises `AttributeError`. -/
def pyGet (v : PyVal) (k : String) (default : PyVal) : Except PyErr PyVal :=
  match v with
  | .dictNil => .ok ((dictLookup .dictNil k).getD default)
  | .dictCons k1 v1 rest => .ok ((dictLookup (.dictCons k1 v1 rest) k).getD default)
  | _ => .error .attributeError

/-- Build a dict chain from a list of pairs, keeping insertion order. -/
def dictOfPairs (pairs : List (String × PyVal)) : PyVal :=
  pairs.foldr (fun kv acc => .dictCons kv.1 kv.2 acc) .dictNil

/-- Shape check for the digit part of an integer literal after its first
digit: Python 3.6+ allows single underscores between digits. -/
def intDigitsTail : List Char → Bool
  | [] => true
  | '_' :: cs =>
    match cs with
    | c :: cs2 => pyIsDigit c && intDigitsTail cs2
    | [] => false
  | c :: cs => pyIsDigit c && intDigitsTail cs

/-- Shape check for a full digit part: one digit, then `intDigitsTail`. -/
def intDigitsShape : List Char → Bool
  | [] => false
  | c :: cs => pyIsDigit c && intDigitsTail cs

/-- Numeric value of a digit sequence, ignoring underscores. -/
def digitsValue (cs : List Char) : Nat :=
  (cs.filter (fun c => c ≠ '_')).foldl (fun n c => n * 10 + digitVal c) 0

/-- Model of `int(s)` for a string argument `s`: strip surrounding
whitespace, accept an optional sign followed by digits with single
interior underscores; any other shape raises `ValueError` (here:
`Option.none`).  ASCII digits only. -/
def pyIntOfString (s : String) : Option Int :=
  match pyStripChars s.data with
  | '+' :: rest => if intDigitsShape rest then some (digitsValue rest) else Option.none
  | '-' :: rest => if intDigitsShape rest then some (-(digitsValue rest : Int)) else Option.none
  | rest => if intDigitsShape rest then some (digitsValue rest) else Option.none

/-- Integer division of `num` by a positive `den`, truncating toward
zero — the rounding `int()` applies to a finite Python float. -/
def truncDiv (num : Int) (den : Nat) : Int :=
  if 0 ≤ num then ((num.toNat / den : Nat) : Int) else -(((-num).toNat / den : Nat) : Int)

/-- Outcome of Python `int(v)`: a value, a `TypeError`/`ValueError`
(both caught by `normalizar_severity`), or an `OverflowError` (raised by
`int()` on an infinite float, and NOT caught there). -/
inductive IntConv where
  | ok (n : Int)
  | typeOrValueError
  | overflowError
  deriving DecidableEq, Repr

/-- Model of Python `int(v)` on the embedded values. -/
def pyIntConv : PyVal → IntConv
  | .int n => .ok n
  | .bool b => .ok (if b then 1 else 0)
  | .str s =>
    match pyIntOfString s with
    | some n => .ok n
    | Option.none => .typeOrValueError
  | .pfloat num den => .ok (truncDiv num den)
  | .pnan => .typeOrValueError
  | .pinf _ => .overflowError
  | .none => .typeOrValueError
  | .listNil => .typeOrValueError
  | .listCons _ _ => .typeOrValueError
  | .dictNil => .typeOrValueError
  | .dictCons _ _ _ => .typeOrValueError

/-- Embedding of `parser.normalizar_severity` (src/parser.py:72-86):
`int(sev)` clamped to `[0,10]` via `max(0, min(sev, 10))`; the
`except (TypeError, ValueError)` clause turns those two conversion
failures into `0`.  An `OverflowError` from `int()` is not caught and
escapes, hence the `Except` result. -/
def normalizar_severity (sev : PyVal) : Except PyErr Int :=
  match pyIntConv sev with
  | .ok n => .ok (max 0 (min n 10))
  | .typeOrValueError => .ok 0
  | .overflowError => .error .overflowError

/-- First element of an input list on which `f` succeeds (the
backtracking search order of a regular-expression alternation). -/
def firstSome {α β : Type} (f : α → Option β) : List α → Option β
  | [] => Option.none
  | a :: as =>
    match f a with
    | some b => some b
    | Option.none => firstSome f as

/-- Consume one expected character. -/
def expectChar (c : Char) : List Char → Option (List Char)
  | c1 :: cs => if c1 = c then some cs else Option.none
  | [] => Option.none

/-- Read exactly `n` ASCII digits, accumulating their value. -/
def readDigitsAux : Nat → Nat → List Char → Option (Nat × List Char)
  | 0, acc, cs => some (acc, cs)
  | _ + 1, _, [] => Option.none
  | n + 1, acc, c :: cs =>
    if pyIsDigit c then readDigitsAux n (acc * 10 + digitVal c) cs else Option.none

/-- Read exactly `n` ASCII digits. -/
def readDigits (n : Nat) (cs : List Char) : Option (Nat × List Char) :=
  readDigitsAux n 0 cs

/-- A Python `datetime.datetime`: the validated field record produced by
the two parsing branches of `normalizar_timestamp`.  `tzmin` is the UTC
offset in minutes (`Option.none` for a naive datetime). -/
structure PyDatetime where
  year : Nat
  month : Nat
  day : Nat
  hour : Nat
  minute : Nat
  second : Nat
  microsecond : Nat
  tzmin : Option Int
  deriving DecidableEq, Repr

/-- Gregorian leap-year rule, as used by `datetime`'s validation. -/
def isLeapYear (y : Nat) : Bool :=
  y % 4 = 0 && (y % 100 ≠ 0 || y % 400 = 0)

/-- Days in a month, as used by `datetime`'s validation. -/
def daysInMonth (y m : Nat) : Nat :=
  if m = 2 then (if isLeapYear y then 29 else 28)
  else if m = 4 || m = 6 || m = 9 || m = 11 then 30
  else 31

/-- The `datetime.datetime` constructor: field-range validation
(`ValueError` on violation, here `Option.none`); a timezone offset must
lie strictly between -24 and +24 hours. -/
def mkDatetime (y mo d h mi s us : Nat) (tz : Option Int) : Option PyDatetime :=
  if 1 ≤ y && y ≤ 9999 && 1 ≤ mo && mo ≤ 12 && 1 ≤ d && d ≤ daysInMonth y mo
      && h ≤ 23 && mi ≤ 59 && s ≤ 59 && us ≤ 999999
      && (match tz with
          | Option.none => true
          | some off => -1440 < off && off < 1440) then
    some ⟨y, mo, d, h, mi, s, us, tz⟩
  else
    Option.none

/-- Parse the time-of-day tail of an ISO string:
`HH[:MM[:SS[.fff or .ffffff]]]` followed by an optional `±HH:MM`
timezone suffix; returns hour, minute, second, microsecond, offset. -/
def parseIsoTime (cs : List Char) : Option (Nat × Nat × Nat × Nat × Option Int) :=
  match readDigits 2 cs with
  | Option.none => Option.none
  | some (h, rest1) =>
    let minSecFrac : Option (Nat × Nat × Nat × List Char) :=
      match rest1 with
      | ':' :: rest2 =>
        match readDigits 2 rest2 with
        | Option.none => Option.none
        | some (mi, rest3) =>
          match rest3 with
          | ':' :: rest4 =>
            match readDigits 2 rest4 with
            | Option.none => Option.none
            | some (s, rest5) =>
              match rest5 with
              | '.' :: rest6 =>
                let digs := rest6.takeWhile pyIsDigit
                let rest7 := rest6.dropWhile pyIsDigit
                if digs.length = 3 then some (mi, s, digitsValue digs * 1000, rest7)
                else if digs.length = 6 then some (mi, s, digitsValue digs, rest7)
                else Option.none
              | _ => some (mi, s, 0, rest5)
          | _ => some (mi, 0, 0, rest3)
      | _ => some (0, 0, 0, rest1)
    match minSecFrac with
    | Option.none => Option.none
    | some (mi, s, us, rest) =>
      match rest with
      | [] => some (h, mi, s, us, Option.none)
      | sign :: tzrest =>
        if sign = '+' || sign = '-' then
          match readDigits 2 tzrest with
          | Option.none => Option.none
          | some (tzh, r1) =>
            match expectChar ':' r1 with
            | Option.none => Option.none
            | some r2 =>
              match readDigits 2 r2 with
              | Option.none => Option.none
              | some (tzm, r3) =>
                if r3 = [] then
                  let off : Int := (tzh * 60 + tzm : Nat)
                  some (h, mi, s, us, some (if sign = '-' then -off else off))
                else Option.none
        else Option.none

/-- Model of `datetime.fromisoformat` (the strict grammar accepted by
every supported CPython version, i.e. the pre-3.11 grammar — the
`YYYY-MM-DD` date, then optionally one arbitrary separator character and
a `HH[:MM[:SS[.fff|.ffffff]]][±HH:MM]` time); the parsed fields then
pass through the `datetime` constructor's range validation. -/
def fromisoformat (str : String) : Option PyDatetime :=
  let cs := str.data
  match readDigits 4 cs with
  | Option.none => Option.none
  | some (y, r1) =>
    match expectChar '-' r1 with
    | Option.none => Option.none
    | some r2 =>
      match readDigits 2 r2 with
      | Option.none => Option.none
      | some (mo, r3) =>
        match expectChar '-' r3 with
        | Option.none => Option.none
        | some r4 =>
          match readDigits 2 r4 with
          | Option.none => Option.none
          | some (d, r5) =>
            match r5 with
            | [] => mkDatetime y mo d 0 0 0 0 Option.none
            | _ :: timecs =>
              match parseIsoTime timecs with
              | Option.none => Option.none
              | some (h, mi, s, us, tz) => mkDatetime y mo d h mi s us tz

/-- Lower-cased month abbreviation to month number (`strptime`'s `%b`
directive matches the C-locale month abbreviations case-insensitively). -/
def monthNum (c1 c2 c3 : Char) : Option Nat :=
  let t := (c1.toLower, c2.toLower, c3.toLower)
  if t = ('j', 'a', 'n') then some 1
  else if t = ('f', 'e', 'b') then some 2
  else if t = ('m', 'a', 'r') then some 3
  else if t = ('a', 'p', 'r') then some 4
  else if t = ('m', 'a', 'y') then some 5
  else if t = ('j', 'u', 'n') then some 6
  else if t = ('j', 'u', 'l') then some 7
  else if t = ('a', 'u', 'g') then some 8
  else if t = ('s', 'e', 'p') then some 9
  else if t = ('o', 'c', 't') then some 10
  else if t = ('n', 'o', 'v') then some 11
  else if t = ('d', 'e', 'c') then some 12
  else Option.none

/-- Match `%b`: a three-letter month abbreviation. -/
def parseMonthAbbr : List Char → Option (Nat × List Char)
  | c1 :: c2 :: c3 :: rest =>
    match monthNum c1 c2 c3 with
    | some m => some (m, rest)
    | Option.none => Option.none
  | _ => Option.none

/-- Match `\s+` (a literal space in a `strptime` format matches one or
more whitespace characters). -/
def skipSpaces1 : List Char → Option (List Char)
  | c :: cs => if pyIsSpace c then some (cs.dropWhile pyIsSpace) else Option.none
  | [] => Option.none

/-- Candidates for `%d` (`3[01]|[12]\d|0[1-9]|[1-9]`), in the regular
expression's alternation order: the matching two-digit branch first,
then the one-digit branch, so a failed continuation can backtrack. -/
def dayCands : List Char → List (Nat × List Char)
  | c1 :: c2 :: rest =>
    let two :=
      if (c1 = '3' && (c2 = '0' || c2 = '1'))
          || ((c1 = '1' || c1 = '2') && pyIsDigit c2)
          || (c1 = '0' && pyIsDigit c2 && c2 ≠ '0') then
        [(digitVal c1 * 10 + digitVal c2, rest)]
      else []
    let one :=
      if pyIsDigit c1 && c1 ≠ '0' then [(digitVal c1, c2 :: rest)] else []
    two ++ one
  | [c1] => if pyIsDigit c1 && c1 ≠ '0' then [(digitVal c1, [])] else []
  | [] => []

/-- Candidates for `%H` (`2[0-3]|[0-1]\d|\d`). -/
def hourCands : List Char → List (Nat × List Char)
  | c1 :: c2 :: rest =>
    let two :=
      if (c1 = '2' && ('0' ≤ c2 && c2 ≤ '3'))
          || ((c1 = '0' || c1 = '1') && pyIsDigit c2) then
        [(digitVal c1 * 10 + digitVal c2, rest)]
      else []
    let one := if pyIsDigit c1 then [(digitVal c1, c2 :: rest)] else []
    two ++ one
  | [c1] => if pyIsDigit c1 then [(digitVal c1, [])] else []
  | [] => []

/-- Candidates for `%M` (`[0-5]\d|\d`). -/
def minuteCands : List Char → List (Nat × List Char)
  | c1 :: c2 :: rest =>
    let two :=
      if ('0' ≤ c1 && c1 ≤ '5') && pyIsDigit c2 then
        [(digitVal c1 * 10 + digitVal c2, rest)]
      else []
    let one := if pyIsDigit c1 then [(digitVal c1, c2 :: rest)] else []
    two ++ one
  | [c1] => if pyIsDigit c1 then [(digitVal c1, [])] else []
  | [] => []

/-- Candidates for `%S` (`6[0-1]|[0-5]\d|\d`; 60 and 61 pass the regex
and are rejected later by the `datetime` constructor). -/
def secondCands : List Char → List (Nat × List Char)
  | c1 :: c2 :: rest =>
    let two :=
      if (c1 = '6' && (c2 = '0' || c2 = '1'))
          || (('0' ≤ c1 && c1 ≤ '5') && pyIsDigit c2) then
        [(digitVal c1 * 10 + digitVal c2, rest)]
      else []
    let one := if pyIsDigit c1 then [(digitVal c1, c2 :: rest)] else []
    two ++ one
  | [c1] => if pyIsDigit c1 then [(digitVal c1, [])] else []
  | [] => []

/-- Regular-expression phase of `strptime(ts, "%b %d %H:%M:%S")`: the
pattern `%b \s+ %d \s+ %H : %M : %S` matched against the whole string,
with backtracking over the numeric alternations; yields the raw
month/day/hour/minute/second fields of the first (leftmost-greedy)
match. -/
def syslogTimeMatch (cs : List Char) : Option (Nat × Nat × Nat × Nat × Nat) :=
  match parseMonthAbbr cs with
  | Option.none => Option.none
  | some (mo, cs1) =>
    match skipSpaces1 cs1 with
    | Option.none => Option.none
    | some cs2 =>
      firstSome (fun dc =>
        match skipSpaces1 dc.2 with
        | Option.none => Option.none
        | some cs3 =>
          firstSome (fun hc =>
            match expectChar ':' hc.2 with
            | Option.none => Option.none
            | some cs4 =>
              firstSome (fun mc =>
                match expectChar ':' mc.2 with
                | Option.none => Option.none
                | some cs5 =>
                  firstSome (fun sc =>
                    if sc.2 = [] then some (mo, dc.1, hc.1, mc.1, sc.1)
                    else Option.none)
                    (secondCands cs5))
                (minuteCands cs4))
            (hourCands cs3))
        (dayCands cs2)

/-- Embedding of `datetime.strptime(ts, "%b %d %H:%M:%S")`: the regex
phase above, then the `datetime` constructor with the default year 1900
(both failure modes raise `ValueError`, which the caller catches). -/
def strptimeSyslog (s : String) : Option PyDatetime :=
  match syslogTimeMatch s.data with
  | some (mo, d, h, mi, sec) => mkDatetime 1900 mo d h mi sec 0 Option.none
  | Option.none => Option.none

/-- Two-digit zero-padded decimal rendering. -/
def pad2 (n : Nat) : List Char :=
  [Nat.digitChar ((n / 10) % 10), Nat.digitChar (n % 10)]

/-- Four-digit zero-padded decimal rendering. -/
def pad4 (n : Nat) : List Char :=
  [Nat.digitChar ((n / 1000) % 10), Nat.digitChar ((n / 100) % 10)] ++ pad2 n

/-- Six-digit zero-padded decimal rendering. -/
def pad6 (n : Nat) : List Char :=
  [Nat.digitChar ((n / 100000) % 10), Nat.digitChar ((n / 10000) % 10),
   Nat.digitChar ((n / 1000) % 10), Nat.digitChar ((n / 100) % 10)] ++ pad2 n

/-- Model of `datetime.isoformat()`: `YYYY-MM-DDTHH:MM:SS`, the
microseconds as `.ffffff` only when non-zero, and a `±HH:MM` offset for
an aware datetime. -/
def isoformat (dt : PyDatetime) : String :=
  let usecPart : List Char :=
    if dt.microsecond = 0 then [] else '.' :: pad6 dt.microsecond
  let tzPart : List Char :=
    match dt.tzmin with
    | Option.none => []
    | some off =>
      let sign : Char := if off < 0 then '-' else '+'
      let aoff : Nat := off.natAbs
      sign :: (pad2 (aoff / 60) ++ [':'] ++ pad2 (aoff % 60))
  String.mk (pad4 dt.year ++ ['-'] ++ pad2 dt.month ++ ['-'] ++ pad2 dt.day
    ++ ['T'] ++ pad2 dt.hour ++ [':'] ++ pad2 dt.minute ++ [':'] ++ pad2 dt.second
    ++ usecPart ++ tzPart)

/-- One step of Python `str.replace`: leftmost non-overlapping
replacement of `old` by `new`, fuelled by the string length. -/
def replaceAux : Nat → List Char → List Char → List Char → List Char
  | 0, _, _, s => s
  | fuel + 1, old, new, s =>
    if old.isPrefixOf s then new ++ replaceAux fuel old new (s.drop old.length)
    else
      match s with
      | [] => []
      | c :: cs => c :: replaceAux fuel old new cs

/-- Model of Python `s.replace(old, new)` for non-empty `old` (the only
use here replaces every occurrence of `"Z"`; the empty-pattern case of
`str.replace` is never exercised and is left as the identity). -/
def pyReplace (s old new : String) : String :=
  if old.data.isEmpty then s
  else String.mk (replaceAux s.data.length old.data new.data s.data)

/-- Embedding of `parser.normalizar_timestamp` (src/parser.py:49-70) on
a string argument: empty input returns `""`; otherwise try
`fromisoformat` after replacing every `"Z"` with `"+00:00"`, then
`strptime` with the syslog pattern, re-emitting a parse success as
canonical ISO-8601; if both fail (`ValueError`, caught) return the input
verbatim.  The function is total: no exception escapes. -/
def normalizar_timestamp (ts : String) : String :=
  if ts = "" then ""
  else
    match fromisoformat (pyReplace ts "Z" "+00:00") with
    | some dt => isoformat dt
    | Option.none =>
      match strptimeSyslog ts with
      | some dt => isoformat dt
      | Option.none => ts

/-- Behaviour of `normalizar_timestamp` applied to an arbitrary Python value, as the
parsers do: a falsy argument (`None`, `""`, `0`, ...) takes the
`if not ts: return ""` branch; a truthy string is normalized; any truthy
non-string raises `AttributeError` at `ts.replace` (not caught inside
the function, whose `except` clauses only catch `ValueError`). -/
def normalizar_timestamp_py (v : PyVal) : Except PyErr String :=
  if pyTruthy v = false then .ok ""
  else
    match v with
    | .str s => .ok (normalizar_timestamp s)
    | _ => .error .attributeError

/-- The canonical event record built by every parser: the Python dict
`{"timestamp": ..., "host": ..., "process": ..., "message": ...,
"severity": ...}`.  All five keys are present by construction (the
source builds each event as a literal with exactly these keys);
`timestamp` is always a `str` and `severity` always an `int` in the
source, while the other three fields can carry arbitrary Python values
(`None` from a short CSV row, any JSON value from a decoded object). -/
structure Evento where
  timestamp : String
  host : PyVal
  process : PyVal
  message : PyVal
  severity : Int
  deriving DecidableEq, Repr

/-- Model of one `csv.DictReader` row dict: header names zipped with the
row's cells; a row shorter than the header fills the remaining keys with
the reader's `restval`, which is `None`; extra cells beyond the header
go under the non-string key `None` and are invisible to the string-keyed
lookups the parsers perform. -/
def rowDict (hdr row : List String) : PyVal :=
  dictOfPairs (hdr.zip (row.map PyVal.str ++ List.replicate (hdr.length - row.length) PyVal.none))

/-- Sequencing of two fallible steps — Python's implicit exception
propagation: if `a` raised, the raise propagates; otherwise its value
feeds the rest of the computation. -/
def exSeq {α β : Type} (a : Except PyErr α) (f : α → Except PyErr β) : Except PyErr β :=
  match a with
  | .ok x => f x
  | .error e => .error e

/-- Body of the `try` block of `procesar_csv`'s row loop
(src/parser.py:105-112): build the event dict, fetching each column with
`.get` and its default, in the evaluation order of the dict literal. -/
def csvRowEval (fila : PyVal) : Except PyErr Evento :=
  exSeq (pyGet fila "timestamp" (.str "")) fun tsv =>
  exSeq (normalizar_timestamp_py tsv) fun ts =>
  exSeq (pyGet fila "host" (.str "")) fun host =>
  exSeq (pyGet fila "process" (.str "")) fun prc =>
  exSeq (pyGet fila "message" (.str "")) fun msg =>
  exSeq (pyGet fila "severity" (.int 0)) fun sevv =>
  exSeq (normalizar_severity sevv) fun sev =>
  .ok ⟨ts, host, prc, msg, sev⟩

/-- Body of the `try` block of `procesar_csv_windows`'s row loop
(src/parser.py:135-142): the Windows-export column names, with
`ProviderName` defaulting to `"unknown"`. -/
def csvWindowsRowEval (fila : PyVal) : Except PyErr Evento :=
  exSeq (pyGet fila "TimeCreated" (.str "")) fun tsv =>
  exSeq (normalizar_timestamp_py tsv) fun ts =>
  exSeq (pyGet fila "Computer" (.str "")) fun host =>
  exSeq (pyGet fila "ProviderName" (.str "unknown")) fun prc =>
  exSeq (pyGet fila "Message" (.str "")) fun msg =>
  exSeq (pyGet fila "Level" (.int 0)) fun sevv =>
  exSeq (normalizar_severity sevv) fun sev =>
  .ok ⟨ts, host, prc, msg, sev⟩

/-- The shared `for fila in lector` loop of the two delimited-text
parsers: `DictReader` silently skips blank rows; a row whose mapping
raises is skipped and counted (`except Exception`), any other row's
event is appended in order. -/
def csvLoop (rowEval : PyVal → Except PyErr Evento) (hdr : List String) :
    List (List String) → List Evento × Nat
  | [] => ([], 0)
  | row :: rest =>
    if row.isEmpty then csvLoop rowEval hdr rest
    else
      match rowEval (rowDict hdr row) with
      | .ok e => (e :: (csvLoop rowEval hdr rest).1, (csvLoop rowEval hdr rest).2)
      | .error _ => ((csvLoop rowEval hdr rest).1, (csvLoop rowEval hdr rest).2 + 1)

/-- Embedding of `parser.procesar_csv` (src/parser.py:88-116).  The file
is modelled as its rows of cells (the `csv` module's line splitting is
outside the model); the first row is the `DictReader` header, and the
extension warning is an advisory print with no effect on the result. -/
def procesar_csv : List (List String) → List Evento × Nat
  | [] => ([], 0)
  | hdr :: rest => csvLoop csvRowEval hdr rest

/-- Embedding of `parser.procesar_csv_windows` (src/parser.py:118-146),
identical to `procesar_csv` up to the column mapping. -/
def procesar_csv_windows : List (List String) → List Evento × Nat
  | [] => ([], 0)
  | hdr :: rest => csvLoop csvWindowsRowEval hdr rest

/-- Atom of the syslog regular expression: a literal character, or a
greedy `+` / `*` over a single-character class — the only quantified
forms appearing in `^(\w+\s+\d+\s+\d+:\d+:\d+)\s+(\S+)\s+([^:]+):\s+(.*)$`. -/
inductive ReAtom where
  | lit (c : Char)
  | many1 (p : Char → Bool)
  | many0 (p : Char → Bool)

/-- Item of the pattern: a bare atom or a capturing group of atoms (no
group in this pattern nests). -/
inductive ReItem where
  | plain (a : ReAtom)
  | grp (atoms : List ReAtom)

/-- Candidate consumption lengths for a greedy quantifier over a
character class whose maximal run has length `r`: `r, r-1, ..., lo`
(longest first, the backtracking order of a greedy match). -/
def greedyCands (r lo : Nat) : List Nat :=
  ((List.range (r + 1)).filter (fun i => lo ≤ i)).reverse

/-- Backtracking matcher for a sequence of atoms, in continuation style:
`k` receives the unconsumed suffix.  Greedy quantifiers try the longest
run first and backtrack through shorter ones. -/
def matchAtoms : List ReAtom → List Char → (List Char → Option (List String)) →
    Option (List String)
  | [], s, k => k s
  | .lit c :: rest, s, k =>
    match s with
    | c1 :: s1 => if c1 = c then matchAtoms rest s1 k else Option.none
    | [] => Option.none
  | .many1 p :: rest, s, k =>
    firstSome (fun i => matchAtoms rest (s.drop i) k)
      (greedyCands (s.takeWhile p).length 1)
  | .many0 p :: rest, s, k =>
    firstSome (fun i => matchAtoms rest (s.drop i) k)
      (greedyCands (s.takeWhile p).length 0)

/-- Matcher for the item sequence, anchored at the start (`re.match`)
and, because the pattern ends in `$` and the matched line has been
stripped of its newline, at the end; a group captures the slice its
atoms consumed.  Captures are accumulated in reverse and returned in
group order. -/
def matchItems : List ReItem → List Char → List String → Option (List String)
  | [], s, caps => if s = [] then some caps.reverse else Option.none
  | .plain a :: rest, s, caps => matchAtoms [a] s (fun s1 => matchItems rest s1 caps)
  | .grp atoms :: rest, s, caps =>
    matchAtoms atoms s
      (fun s1 => matchItems rest s1 (String.mk (s.take (s.length - s1.length)) :: caps))

/-- ASCII model of `\w`. -/
def reWord (c : Char) : Bool :=
  c.isAlphanum || c = '_'

/-- The compiled syslog pattern
`^(\w+\s+\d+\s+\d+:\d+:\d+)\s+(\S+)\s+([^:]+):\s+(.*)$` of
`procesar_syslog` (src/parser.py:195), with exactly four groups; `[^:]`
matches any character but `:` (including whitespace) and `.` any
character but a newline. -/
def syslogPattern : List ReItem :=
  [.grp [.many1 reWord, .many1 pyIsSpace, .many1 pyIsDigit, .many1 pyIsSpace,
         .many1 pyIsDigit, .lit ':', .many1 pyIsDigit, .lit ':', .many1 pyIsDigit],
   .plain (.many1 pyIsSpace),
   .grp [.many1 (fun c => !(pyIsSpace c))],
   .plain (.many1 pyIsSpace),
   .grp [.many1 (fun c => c ≠ ':')],
   .plain (.lit ':'),
   .plain (.many1 pyIsSpace),
   .grp [.many0 (fun c => c ≠ '\n')]]

/-- Result of `regex.match(linea.strip())` for the syslog pattern: the four
captured groups of the first match, if any. -/
def syslogMatch (s : String) : Option (List String) :=
  matchItems syslogPattern s.data []

/-- The line loop of `procesar_syslog`: a matching line contributes an
event (severity fixed at 0; the format carries none), a non-matching
line is counted invalid. -/
def syslogLoop : List String → List Evento × Nat
  | [] => ([], 0)
  | linea :: rest =>
    match syslogMatch (pyStrip linea) with
    | some [g1, g2, g3, g4] =>
      (⟨normalizar_timestamp g1, .str g2, .str g3, .str g4, 0⟩ :: (syslogLoop rest).1,
        (syslogLoop rest).2)
    | _ => ((syslogLoop rest).1, (syslogLoop rest).2 + 1)

/-- Embedding of `parser.procesar_syslog` (src/parser.py:182-211).  The
file is modelled as its list of lines (without terminating newlines —
each is `strip`ped before matching, so the newline never matters). -/
def procesar_syslog (lineas : List String) : List Evento × Nat :=
  syslogLoop lineas

/-- An event after the Ingestion Coordinator's stamp: the same dict with
the added `"_log_type"` key. -/
structure EventoEtiquetado where
  evento : Evento
  log_type : String
  deriving DecidableEq, Repr

/-- Embedding of the accumulation step of `main.menu_ingesta`
(src/main.py:72-78): when the selected parser returned events
(`if nuevos_datos:`), stamp each with the selector's format tag and
extend the caller-owned collection; otherwise leave the collection
untouched.  The boolean records whether events were loaded (its negation
is the "no events loaded from this file" message to the user). -/
def menu_ingesta_step (datos_cargados : List EventoEtiquetado)
    (nuevos_datos : List Evento) (tipo : String) : List EventoEtiquetado × Bool :=
  if nuevos_datos.isEmpty then (datos_cargados, false)
  else (datos_cargados ++ nuevos_datos.map (fun e => ⟨e, tipo⟩), true)

/-- JSON inter-token whitespace. -/
def jsonWs (cs : List Char) : List Char :=
  cs.dropWhile (fun c => c = ' ' || c = '\t' || c = '\n' || c = '\r')

/-- Hexadecimal digit value (code points 0-9, a-f, A-F). -/
def hexVal (c : Char) : Option Nat :=
  let n := c.toNat
  if 48 ≤ n ∧ n ≤ 57 then some (n - 48)
  else if 97 ≤ n ∧ n ≤ 102 then some (n - 87)
  else if 65 ≤ n ∧ n ≤ 70 then some (n - 55)
  else Option.none

/-- Body of a JSON string after the opening quote: strict mode (raw
control characters rejected), the standard escapes, and `\uXXXX` mapped
through `Char.ofNat` (surrogate halves, which Lean's `Char` cannot
carry, fall to the replacement value — no input in this development uses
them). -/
def jsonStrAux : Nat → List Char → List Char → Option (String × List Char)
  | 0, _, _ => Option.none
  | _ + 1, _, [] => Option.none
  | fuel + 1, acc, c :: cs =>
    if c = '"' then some (String.mk acc.reverse, cs)
    else if c = '\\' then
      match cs with
      | e :: cs2 =>
        if e = '"' then jsonStrAux fuel ('"' :: acc) cs2
        else if e = '\\' then jsonStrAux fuel ('\\' :: acc) cs2
        else if e = '/' then jsonStrAux fuel ('/' :: acc) cs2
        else if e = 'b' then jsonStrAux fuel ('\x08' :: acc) cs2
        else if e = 'f' then jsonStrAux fuel ('\x0c' :: acc) cs2
        else if e = 'n' then jsonStrAux fuel ('\n' :: acc) cs2
        else if e = 'r' then jsonStrAux fuel ('\r' :: acc) cs2
        else if e = 't' then jsonStrAux fuel ('\t' :: acc) cs2
        else if e = 'u' then
          match cs2 with
          | h1 :: h2 :: h3 :: h4 :: cs3 =>
            match hexVal h1, hexVal h2, hexVal h3, hexVal h4 with
            | some v1, some v2, some v3, some v4 =>
              jsonStrAux fuel (Char.ofNat (((v1 * 16 + v2) * 16 + v3) * 16 + v4) :: acc) cs3
            | _, _, _, _ => Option.none
          | _ => Option.none
        else Option.none
      | [] => Option.none
    else if c.toNat < 0x20 then Option.none
    else jsonStrAux fuel (c :: acc) cs

/-- A JSON number, per the scanner's regular expression
`(-?(?:0|[1-9]\d*))(\.\d+)?([eE][-+]?\d+)?`: an integer literal yields a
Python `int`, a fractional or exponent part yields a float (modelled as
the exact rational the literal denotes). -/
def parseJsonNumber (cs0 : List Char) : Option (PyVal × List Char) :=
  let (neg, cs1) :=
    match cs0 with
    | '-' :: rest => (true, rest)
    | _ => (false, cs0)
  let intPart : Option (List Char × List Char) :=
    match cs1 with
    | '0' :: rest => some (['0'], rest)
    | c :: _ =>
      if pyIsDigit c && c ≠ '0' then some (cs1.takeWhile pyIsDigit, cs1.dropWhile pyIsDigit)
      else Option.none
    | [] => Option.none
  match intPart with
  | Option.none => Option.none
  | some (ids, cs2) =>
    let fracPart : List Char × List Char :=
      match cs2 with
      | '.' :: rest =>
        if (rest.takeWhile pyIsDigit).length = 0 then ([], cs2)
        else (rest.takeWhile pyIsDigit, rest.dropWhile pyIsDigit)
      | _ => ([], cs2)
    let fds := fracPart.1
    let cs3 := fracPart.2
    let expPart : Option Int × List Char :=
      match cs3 with
      | e :: rest =>
        if e = 'e' || e = 'E' then
          let (esign, rest2) :=
            match rest with
            | '+' :: r => ((1 : Int), r)
            | '-' :: r => ((-1 : Int), r)
            | _ => ((1 : Int), rest)
          let eds := rest2.takeWhile pyIsDigit
          if eds.length = 0 then (Option.none, cs3)
          else (some (esign * (digitsValue eds : Int)), rest2.dropWhile pyIsDigit)
        else (Option.none, cs3)
      | [] => (Option.none, cs3)
    let cs4 := expPart.2
    if fds.isEmpty && expPart.1.isNone then
      let v : Int := digitsValue ids
      some (.int (if neg then -v else v), cs4)
    else
      let m : Int := digitsValue (ids ++ fds)
      let sm : Int := if neg then -m else m
      let e : Int := expPart.1.getD 0 - fds.length
      if 0 ≤ e then some (.pfloat (sm * ((10 : Int) ^ e.toNat)) 1, cs4)
      else some (.pfloat sm ((10 : Nat) ^ (-e).toNat), cs4)

/-- One key-value member of a JSON object: `"key" ws : ws value`. -/
def parseJsonPair (pv : List Char → Option (PyVal × List Char)) (cs : List Char) :
    Option ((String × PyVal) × List Char) :=
  match cs with
  | '"' :: rest =>
    match jsonStrAux rest.length [] rest with
    | some (k, r1) =>
      match jsonWs r1 with
      | ':' :: r2 =>
        match pv (jsonWs r2) with
        | some (v, r3) => some ((k, v), r3)
        | Option.none => Option.none
      | _ => Option.none
    | Option.none => Option.none
  | _ => Option.none

/-- The non-empty member list of a JSON object, comma-separated, ending
at `}`; the dict chain keeps document order (a repeated key is resolved
by `dictLookup`'s later-binding-wins rule, matching `dict`'s overwrite). -/
def parseJsonMembers (pv : List Char → Option (PyVal × List Char)) :
    Nat → List Char → Option (PyVal × List Char)
  | 0, _ => Option.none
  | fuel + 1, cs =>
    match parseJsonPair pv cs with
    | Option.none => Option.none
    | some ((k, v), r) =>
      match jsonWs r with
      | ',' :: r2 =>
        match parseJsonMembers pv fuel (jsonWs r2) with
        | some (tail, r3) => some (.dictCons k v tail, r3)
        | Option.none => Option.none
      | '}' :: r2 => some (.dictCons k v .dictNil, r2)
      | _ => Option.none

/-- The non-empty element list of a JSON array. -/
def parseJsonElems (pv : List Char → Option (PyVal × List Char)) :
    Nat → List Char → Option (PyVal × List Char)
  | 0, _ => Option.none
  | fuel + 1, cs =>
    match pv cs with
    | Option.none => Option.none
    | some (v, r) =>
      match jsonWs r with
      | ',' :: r2 =>
        match parseJsonElems pv fuel (jsonWs r2) with
        | some (tail, r3) => some (.listCons v tail, r3)
        | Option.none => Option.none
      | ']' :: r2 => some (.listCons v .listNil, r2)
      | _ => Option.none

/-- One JSON value (object, array, string, number, or one of the
constants `true`/`false`/`null` plus Python's accepted extensions
`NaN`/`Infinity`/`-Infinity`), fuelled by the input length. -/
def parseJsonValue : Nat → List Char → Option (PyVal × List Char)
  | 0, _ => Option.none
  | fuel + 1, cs =>
    match cs with
    | '"' :: rest => (jsonStrAux rest.length [] rest).map (fun p => (.str p.1, p.2))
    | '{' :: rest =>
      match jsonWs rest with
      | '}' :: r2 => some (.dictNil, r2)
      | r2 => parseJsonMembers (parseJsonValue fuel) fuel r2
    | '[' :: rest =>
      match jsonWs rest with
      | ']' :: r2 => some (.listNil, r2)
      | r2 => parseJsonElems (parseJsonValue fuel) fuel r2
    | _ =>
      if ['t', 'r', 'u', 'e'].isPrefixOf cs then some (.bool true, cs.drop 4)
      else if ['f', 'a', 'l', 's', 'e'].isPrefixOf cs then some (.bool false, cs.drop 5)
      else if ['n', 'u', 'l', 'l'].isPrefixOf cs then some (.none, cs.drop 4)
      else if ['N', 'a', 'N'].isPrefixOf cs then some (.pnan, cs.drop 3)
      else if ['I', 'n', 'f', 'i', 'n', 'i', 't', 'y'].isPrefixOf cs then
        some (.pinf false, cs.drop 8)
      else if ['-', 'I', 'n', 'f', 'i', 'n', 'i', 't', 'y'].isPrefixOf cs then
        some (.pinf true, cs.drop 9)
      else parseJsonNumber cs

/-- Model of `json.loads`: one JSON value with surrounding whitespace;
anything else (including trailing data) raises `json.JSONDecodeError`,
here `Option.none`.  (A `RecursionError` on absurdly deep nesting is
outside the model; the fuel is ample for any input in this file.) -/
def json_loads (s : String) : Option PyVal :=
  match parseJsonValue (s.data.length + 1) (jsonWs s.data) with
  | some (v, rest) => if jsonWs rest = [] then some v else Option.none
  | Option.none => Option.none

/-- Body of the `try` block of `procesar_json`'s line loop
(src/parser.py:168-176) applied to the decoded object: each field
fetched in the evaluation order of the source dict literal (for the
`host` and `process` chains Python evaluates the `.get` callee before
the fallback default that is its argument).  A non-dict at any `.get`
receiver raises `AttributeError`, which the loop's
`except json.JSONDecodeError` does NOT catch. -/
def mapJsonObj (obj : PyVal) : Except PyErr Evento :=
  exSeq (pyGet obj "timestamp" (.str "")) fun tsv =>
  exSeq (normalizar_timestamp_py tsv) fun ts =>
  exSeq (pyGet obj "agent" .dictNil) fun ag =>
  exSeq (pyGet obj "manager" .dictNil) fun mgr =>
  exSeq (pyGet mgr "name" (.str "")) fun mgrName =>
  exSeq (pyGet ag "name" mgrName) fun host =>
  exSeq (pyGet obj "predecoder" .dictNil) fun pre =>
  exSeq (pyGet obj "decoder" .dictNil) fun dec =>
  exSeq (pyGet dec "name" (.str "unknown")) fun decName =>
  exSeq (pyGet pre "program_name" decName) fun prc =>
  exSeq (pyGet obj "full_log" (.str "")) fun msg =>
  exSeq (pyGet obj "rule" .dictNil) fun rule =>
  exSeq (pyGet rule "level" (.int 0)) fun lvl =>
  exSeq (normalizar_severity lvl) fun sev =>
  .ok ⟨ts, host, prc, msg, sev⟩

/-- The line loop of `procesar_json`: strip each line, silently skip
blank ones, count a line `json.loads` rejects, and otherwise map the
decoded object — an exception there propagates, aborting the whole
parse (the local `datos` list is lost with the frame). -/
def jsonLoop : List String → Except PyErr (List Evento × Nat)
  | [] => .ok ([], 0)
  | linea :: rest =>
    if pyStrip linea = "" then jsonLoop rest
    else
      match json_loads (pyStrip linea) with
      | Option.none =>
        match jsonLoop rest with
        | .ok p => .ok (p.1, p.2 + 1)
        | .error e => .error e
      | some obj =>
        match mapJsonObj obj with
        | .error e => .error e
        | .ok ev =>
          match jsonLoop rest with
          | .ok p => .ok (ev :: p.1, p.2)
          | .error e => .error e

/-- Embedding of `parser.procesar_json` (src/parser.py:148-180).  The
file is modelled as its list of lines; the extension warning is an
advisory print with no effect on the result. -/
def procesar_json (lineas : List String) : Except PyErr (List Evento × Nat) :=
  jsonLoop lineas

/-- An XML element forest in first-child / next-sibling form (keeping
the type a plain, non-nested inductive): `node tag attrs text children
next`.  `ET.fromstring` hands the parsers a single root node (its `next`
is `nil`). -/
inductive XmlForest where
  | nil
  | node (tag : String) (attrs : List (String × String)) (text : Option String)
      (children : XmlForest) (next : XmlForest)
  deriving DecidableEq, Repr

/-- The two shapes of path `procesar_evtx` feeds to `findtext`: a
descendant tag search `.//Tag`, and a descendant attribute selection
`.//Tag/@Attr`. -/
inductive EtPath where
  | descTag (tag : String)
  | descAttr (tag attr : String)
  deriving DecidableEq, Repr

/-- Text of the first element with the given tag in a forest, in
document order (an element before its descendants before its sibling). -/
def findDescText (t : String) : XmlForest → Option (Option String)
  | .nil => Option.none
  | .node tag _ text children next =>
    if tag = t then some text
    else
      match findDescText t children with
      | some r => some r
      | Option.none => findDescText t next

/-- Model of `xml.etree.ElementTree`'s `findtext` for the two path
shapes used by `procesar_evtx`.  ElementTree's limited XPath dialect has
no attribute step: its `ElementPath` operator table has no entry for the
`@` token, so a `.//Tag/@Attr` path raises `KeyError` at path
compilation, before the tree is consulted.  A `.//Tag` path returns the
first matching descendant's text — with `elem.text or ""`'s collapse of
a missing text to `""` — or `None` (the call sites pass no default) when
nothing matches. -/
def ET_findtext (root : XmlForest) : EtPath → Except PyErr (Option String)
  | .descAttr _ _ => .error .keyError
  | .descTag t =>
    match root with
    | .nil => .ok Option.none
    | .node _ _ _ children _ => .ok ((findDescText t children).map (fun txt => txt.getD ""))

/-- Python `x or d` for an `Optional[str]` scrutinee and a string
default: `None` and `""` are falsy. -/
def pyOrStr (v : Option String) (d : String) : String :=
  match v with
  | some s => if s = "" then d else s
  | Option.none => d

/-- Python `x or d` with an arbitrary embedded default (used for
`findtext(".//Level") or 0`). -/
def pyOrVal (v : Option String) (d : PyVal) : PyVal :=
  match v with
  | some s => if s = "" then d else .str s
  | Option.none => d

/-- Body of the `try` block of `procesar_evtx`'s record loop
(src/parser.py:232-239) after `ET.fromstring` succeeded, in the dict
literal's evaluation order.  The very first field evaluates
`findtext(".//TimeCreated/@SystemTime")`, whose attribute path raises
`KeyError`; the later fields are written out faithfully but are
unreachable. -/
def mapEvtxRecord (xml : XmlForest) : Except PyErr Evento :=
  exSeq (ET_findtext xml (.descAttr "TimeCreated" "SystemTime")) fun tsv =>
  exSeq (.ok (normalizar_timestamp (pyOrStr tsv ""))) fun ts =>
  exSeq (ET_findtext xml (.descTag "Computer")) fun hostv =>
  exSeq (ET_findtext xml (.descAttr "Provider" "Name")) fun prcv =>
  exSeq (ET_findtext xml (.descTag "Message")) fun msgv =>
  exSeq (ET_findtext xml (.descTag "Level")) fun lvlv =>
  exSeq (normalizar_severity (pyOrVal lvlv (.int 0))) fun sev =>
  .ok ⟨ts, .str (pyOrStr hostv ""), .str (pyOrStr prcv "unknown"),
    .str (pyOrStr msgv ""), sev⟩

/-- The record loop of `procesar_evtx`: a record is modelled as the
outcome of `ET.fromstring(registro.xml())` — `Option.none` when that
parse raised.  Either failure mode (parse, or mapping) is caught by the
per-record `except Exception` and counted. -/
def evtxLoop : List (Option XmlForest) → List Evento × Nat
  | [] => ([], 0)
  | rec :: rest =>
    match rec with
    | Option.none => ((evtxLoop rest).1, (evtxLoop rest).2 + 1)
    | some xml =>
      match mapEvtxRecord xml with
      | .ok e => (e :: (evtxLoop rest).1, (evtxLoop rest).2)
      | .error _ => ((evtxLoop rest).1, (evtxLoop rest).2 + 1)

/-- Embedding of `parser.procesar_evtx` (src/parser.py:213-245).
`support` is the module-level `EVTX_SUPPORT` flag; without it the
function prints and returns `[]` before any file access.  `records`
models the record sequence a successful `Evtx(ruta)` open yields (the
top-level read-failure path returns the partial results in the same
shape and is not separately modelled).  The third component records
whether the file was opened (`with Evtx(ruta)` entered) at all. -/
def procesar_evtx (support : Bool) (records : List (Option XmlForest)) :
    List Evento × Nat × Bool :=
  if support then ((evtxLoop records).1, (evtxLoop records).2, true)
  else ([], 0, false)

/-- The per-event invariant of the spec's data model: severity is an
integer within `[0,10]`, and the timestamp is the normalization of some
raw value, empty only when that raw value was empty.  (Presence of all
five fields holds by construction: every parser builds its event as a
literal with exactly these keys, which the `Evento` structure mirrors.) -/
def eventoOk (e : Evento) : Prop :=
  0 ≤ e.severity ∧ e.severity ≤ 10 ∧
    ∃ s, e.timestamp = normalizar_timestamp s ∧ (e.timestamp = "" → s = "")

/-- Specification-side description of `procesar_json`'s output events:
the decoded lines' mapped events, in line order. -/
def jsonValidEvents (lineas : List String) : List Evento :=
  lineas.filterMap fun l =>
    match json_loads (pyStrip l) with
    | some o => (mapJsonObj o).toOption
    | Option.none => Option.none

/-- Specification-side description of `procesar_json`'s invalid-line
count: the non-blank lines `json.loads` rejects. -/
def jsonInvalidCount (lineas : List String) : Nat :=
  (lineas.filter fun l => (pyStrip l != "") && (json_loads (pyStrip l)).isNone).length

/-- Input condition under which `procesar_json` completes: every line
that decodes at all maps to an event without raising. -/
def jsonLinesClean (lineas : List String) : Bool :=
  lineas.all fun l =>
    match json_loads (pyStrip l) with
    | some o => (mapJsonObj o).isOk
    | Option.none => true

/-- A representative well-formed Windows event record, as the XML
fragment `<Event><System><TimeCreated SystemTime="..."/><Computer>
host1</Computer><Provider Name="sshd"/><Level>3</Level></System>
<Message>hello</Message></Event>` parses. -/
def sampleEvtxXml : XmlForest :=
  .node "Event" [] Option.none
    (.node "System" [] Option.none
      (.node "TimeCreated" [("SystemTime", "2024-01-02T03:04:05Z")] Option.none .nil
        (.node "Computer" [] (some "host1") .nil
          (.node "Provider" [("Name", "sshd")] Option.none .nil
            (.node "Level" [] (some "3") .nil .nil))))
      (.node "Message" [] (some "hello") .nil .nil))
    .nil

/-- An ISO re-emission is never the empty string (it starts with the
four year digits). -/
theorem isoformat_ne_empty (dt : PyDatetime) : isoformat dt ≠ "" := by
  intro h
  have h2 : (isoformat dt).data = ("" : String).data := congrArg String.data h
  simp [isoformat, pad4, pad2] at h2

/-- Function `normalizar_timestamp` yields the empty string exactly on the empty
input: both success branches re-emit a non-empty ISO string, and the
fallback returns the (non-empty) input. -/
theorem normalizar_timestamp_empty_iff (s : String) :
    normalizar_timestamp s = "" ↔ s = "" := by
  constructor
  · intro h
    by_contra hs
    unfold normalizar_timestamp at h
    rw [if_neg hs] at h
    split at h
    · exact isoformat_ne_empty _ h
    · split at h
      · exact isoformat_ne_empty _ h
      · exact hs h
  · intro h
    subst h
    rfl

/-- A severity `normalizar_severity` returns (without raising) lies in
`[0,10]`. -/
theorem normalizar_severity_ok_bounds {v : PyVal} {n : Int}
    (h : normalizar_severity v = .ok n) : 0 ≤ n ∧ n ≤ 10 := by
  unfold normalizar_severity at h
  split at h
  · have hn := Except.ok.inj h
    subst hn
    exact ⟨le_max_left _ _, max_le (by norm_num) (min_le_right _ _)⟩
  · have hn := Except.ok.inj h
    subst hn
    exact ⟨le_refl _, by norm_num⟩
  · exact Except.noConfusion h

/-- A timestamp `normalizar_timestamp_py` returns is the normalization
of some raw string, empty only for the empty raw string. -/
theorem normalizar_timestamp_py_ok {v : PyVal} {t : String}
    (h : normalizar_timestamp_py v = .ok t) :
    ∃ s, t = normalizar_timestamp s ∧ (t = "" → s = "") := by
  unfold normalizar_timestamp_py at h
  split at h
  · have ht := Except.ok.inj h
    subst ht
    exact ⟨"", rfl, fun _ => rfl⟩
  · split at h
    · rename_i s hnv
      have ht := Except.ok.inj h
      exact ⟨s, ht.symm, fun he => (normalizar_timestamp_empty_iff s).mp (ht.trans he)⟩
    · exact Except.noConfusion h

/-- A row the generic CSV mapping accepts yields an event satisfying the
data-model invariant. -/
theorem csvRowEval_ok {fila : PyVal} {e : Evento} (h : csvRowEval fila = .ok e) :
    eventoOk e := by
  unfold csvRowEval at h
  simp only [exSeq.eq_def] at h
  repeat split at h
  all_goals try exact Except.noConfusion h
  have he := Except.ok.inj h
  subst he
  exact ⟨(normalizar_severity_ok_bounds (by assumption)).1,
    (normalizar_severity_ok_bounds (by assumption)).2,
    normalizar_timestamp_py_ok (by assumption)⟩

/-- A row the Windows CSV mapping accepts yields an event satisfying the
data-model invariant. -/
theorem csvWindowsRowEval_ok {fila : PyVal} {e : Evento}
    (h : csvWindowsRowEval fila = .ok e) : eventoOk e := by
  unfold csvWindowsRowEval at h
  simp only [exSeq.eq_def] at h
  repeat split at h
  all_goals try exact Except.noConfusion h
  have he := Except.ok.inj h
  subst he
  exact ⟨(normalizar_severity_ok_bounds (by assumption)).1,
    (normalizar_severity_ok_bounds (by assumption)).2,
    normalizar_timestamp_py_ok (by assumption)⟩

/-- A decoded JSON object the mapping accepts yields an event satisfying
the data-model invariant. -/
theorem mapJsonObj_ok {obj : PyVal} {e : Evento} (h : mapJsonObj obj = .ok e) :
    eventoOk e := by
  unfold mapJsonObj at h
  simp only [exSeq.eq_def] at h
  repeat split at h
  all_goals try exact Except.noConfusion h
  have he := Except.ok.inj h
  subst he
  exact ⟨(normalizar_severity_ok_bounds (by assumption)).1,
    (normalizar_severity_ok_bounds (by assumption)).2,
    normalizar_timestamp_py_ok (by assumption)⟩

/-- Every event in a CSV loop's output satisfies the invariant, provided
the row mapping preserves it. -/
theorem csvLoop_mem_ok {rowEval : PyVal → Except PyErr Evento}
    (hre : ∀ fila ev, rowEval fila = .ok ev → eventoOk ev) (hdr : List String) :
    ∀ rows e, e ∈ (csvLoop rowEval hdr rows).1 → eventoOk e := by
  intro rows
  induction rows with
  | nil =>
    intro e he
    simp [csvLoop] at he
  | cons row rest ih =>
    intro e he
    unfold csvLoop at he
    split at he
    · exact ih e he
    · split at he
      · rename_i ev heq
        rcases List.mem_cons.mp he with h1 | h1
        · subst h1
          exact hre _ _ heq
        · exact ih e h1
      · exact ih e he

/-- Every event in the syslog loop's output satisfies the invariant. -/
theorem syslogLoop_mem_ok : ∀ lineas e, e ∈ (syslogLoop lineas).1 → eventoOk e := by
  intro lineas
  induction lineas with
  | nil =>
    intro e he
    simp [syslogLoop] at he
  | cons l rest ih =>
    intro e he
    unfold syslogLoop at he
    split at he
    · rename_i g1 g2 g3 g4 heq
      rcases List.mem_cons.mp he with h1 | h1
      · subst h1
        exact ⟨le_refl 0, show (0 : Int) ≤ 10 by norm_num, g1, rfl,
          fun hemp => (normalizar_timestamp_empty_iff g1).mp hemp⟩
      · exact ih e h1
    · exact ih e he

/-- The windows-binary mapping never succeeds: its first field already
raises on the unsupported attribute path. -/
theorem mapEvtxRecord_error (xml : XmlForest) : mapEvtxRecord xml = .error .keyError := rfl

/-- Consequently the binary-log record loop never emits an event. -/
theorem evtxLoop_datos_nil : ∀ recs, (evtxLoop recs).1 = [] := by
  intro recs
  induction recs with
  | nil => rfl
  | cons rec rest ih =>
    unfold evtxLoop
    split
    · exact ih
    · rename_i xml
      rw [mapEvtxRecord_error xml]
      exact ih

/-- Every event in a successful JSON parse satisfies the invariant. -/
theorem jsonLoop_mem_ok :
    ∀ lineas p, jsonLoop lineas = .ok p → ∀ e, e ∈ p.1 → eventoOk e := by
  intro lineas
  induction lineas with
  | nil =>
    intro p hp e he
    have h2 := Except.ok.inj hp
    subst h2
    simp at he
  | cons l rest ih =>
    intro p hp e he
    unfold jsonLoop at hp
    split at hp
    · exact ih p hp e he
    · split at hp
      · split at hp
        · rename_i q hq
          have h2 := Except.ok.inj hp
          subst h2
          exact ih q hq e he
        · exact Except.noConfusion hp
      · rename_i obj hobj
        split at hp
        · exact Except.noConfusion hp
        · rename_i ev hev
          split at hp
          · rename_i q hq
            have h2 := Except.ok.inj hp
            subst h2
            rcases List.mem_cons.mp he with h1 | h1
            · subst h1
              exact mapJsonObj_ok hev
            · exact ih q hq e h1
          · exact Except.noConfusion hp

/-- C1: every event returned by any of the five parsers carries all five
fields (by construction of the event literal, mirrored by the `Evento`
structure), an integer severity within `[0,10]`, and a timestamp that is
the ISO-8601 normalization of the raw source value or that raw value
verbatim — empty only when the raw value was empty. -/
theorem claim_parsers_event_invariants :
    (∀ rows e, e ∈ (procesar_csv rows).1 → eventoOk e) ∧
    (∀ rows e, e ∈ (procesar_csv_windows rows).1 → eventoOk e) ∧
    (∀ lineas r e, procesar_json lineas = .ok r → e ∈ r.1 → eventoOk e) ∧
    (∀ lineas e, e ∈ (procesar_syslog lineas).1 → eventoOk e) ∧
    (∀ support recs e, e ∈ (procesar_evtx support recs).1 → eventoOk e) := by
  refine ⟨?_, ?_, ?_, ?_, ?_⟩
  · intro rows e he
    cases rows with
    | nil => simp [procesar_csv] at he
    | cons hdr rest =>
      exact csvLoop_mem_ok (fun _ _ h => csvRowEval_ok h) hdr rest e he
  · intro rows e he
    cases rows with
    | nil => simp [procesar_csv_windows] at he
    | cons hdr rest =>
      exact csvLoop_mem_ok (fun _ _ h => csvWindowsRowEval_ok h) hdr rest e he
  · intro lineas r e hr he
    exact jsonLoop_mem_ok lineas r hr e he
  · intro lineas e he
    exact syslogLoop_mem_ok lineas e he
  · intro support recs e he
    cases support with
    | false => simp [procesar_evtx] at he
    | true => simp [procesar_evtx, evtxLoop_datos_nil recs] at he

/-- Witness for C1 at a concrete CSV file: the row
`Sep 02 17:23:54,h1,p1,m1,12` yields an event with the syslog-style
timestamp normalized and severity clamped to 10, and that event
satisfies the invariant. -/
theorem claim_parsers_event_invariants_witness :
    eventoOk ⟨"1900-09-02T17:23:54", .str "h1", .str "p1", .str "m1", 10⟩ :=
  claim_parsers_event_invariants.1
    [["timestamp", "host", "process", "message", "severity"],
     ["Sep 02 17:23:54", "h1", "p1", "m1", "12"]]
    ⟨"1900-09-02T17:23:54", .str "h1", .str "p1", .str "m1", 10⟩ (by decide)

/-- C2: `normalizar_severity` clamps convertible inputs to `[0,10]` and
maps conversion failures to 0 — but it does NOT hold for every input
value: `int()` on an infinite float raises `OverflowError`, which the
`except (TypeError, ValueError)` clause does not catch, so the function
raises.  The second conjunct shows the failure is reachable from a
parser: a JSON record with `"level": Infinity` aborts `procesar_json`
with that `OverflowError`. -/
theorem claim_severity_overflow_divergence :
    normalizar_severity (.pinf false) = .error .overflowError ∧
      procesar_json ["\x7b\"rule\": \x7b\"level\": Infinity\x7d\x7d"] =
        .error .overflowError := by decide

/-- C3 (counterexample): a file whose second line is `1` — valid JSON,
but not an object — is not skipped and counted: the `.get` on the
decoded integer raises `AttributeError`, aborting the whole parse and
discarding the first line's valid event. -/
theorem claim_json_nonobject_aborts :
    procesar_json ["\x7b\x7d", "1"] = .error .attributeError := by decide

/-- The empty string is not a JSON document. -/
theorem json_loads_empty : json_loads "" = Option.none := rfl

/-- A successful mapping is exactly an `isOk` result. -/
theorem except_isOk_iff {ε α : Type} (x : Except ε α) :
    x.isOk = true ↔ ∃ a, x = .ok a := by
  cases x with
  | ok a => simp [Except.isOk, Except.toBool]
  | error e => simp [Except.isOk, Except.toBool]

/-- C3 (amended): the JSON parser is best-effort across lines that fail
JSON decoding — they are skipped and counted while the remaining valid
lines are returned, blank lines silently skipped — PROVIDED every line
that decodes maps without raising; a decoded line that is not an object
of the expected shape raises an uncaught error that aborts the whole
file (see the counterexample). -/
theorem claim_json_best_effort_amended :
    ∀ lineas, jsonLinesClean lineas = true →
      procesar_json lineas = .ok (jsonValidEvents lineas, jsonInvalidCount lineas) := by
  intro lineas
  induction lineas with
  | nil => intro _; rfl
  | cons l rest ih =>
    intro hclean
    have hcl : (match json_loads (pyStrip l) with
        | some o => (mapJsonObj o).isOk
        | Option.none => true) = true ∧ jsonLinesClean rest = true := by
      simpa [jsonLinesClean, List.all_cons] using hclean
    have ihr : jsonLoop rest = .ok (jsonValidEvents rest, jsonInvalidCount rest) :=
      ih hcl.2
    show jsonLoop (l :: rest) = _
    unfold jsonLoop
    by_cases ht : pyStrip l = ""
    · rw [if_pos ht, ihr]
      simp [jsonValidEvents, jsonInvalidCount, List.filterMap_cons, List.filter_cons,
        ht, json_loads_empty]
    · rw [if_neg ht]
      cases hjl : json_loads (pyStrip l) with
      | none =>
        simp [ihr, jsonValidEvents, jsonInvalidCount, List.filterMap_cons,
          List.filter_cons, ht, hjl]
      | some obj =>
        have hobjOk : (mapJsonObj obj).isOk = true := by
          have h1 := hcl.1
          rw [hjl] at h1
          exact h1
        obtain ⟨ev, hev⟩ := (except_isOk_iff (mapJsonObj obj)).mp hobjOk
        simp [ihr, hev, jsonValidEvents, jsonInvalidCount, List.filterMap_cons,
          List.filter_cons, ht, hjl, Except.toOption]

/-- Witness for C3's amended statement on a concrete file: one
undecodable line (counted), one blank line (skipped), one valid record. -/
theorem claim_json_best_effort_amended_witness :
    jsonLinesClean ["not json", "", "\x7b\"full_log\": \"hi\"\x7d"] = true ∧
      procesar_json ["not json", "", "\x7b\"full_log\": \"hi\"\x7d"] =
        .ok (jsonValidEvents ["not json", "", "\x7b\"full_log\": \"hi\"\x7d"],
          jsonInvalidCount ["not json", "", "\x7b\"full_log\": \"hi\"\x7d"]) :=
  ⟨by decide,
    claim_json_best_effort_amended ["not json", "", "\x7b\"full_log\": \"hi\"\x7d"] (by decide)⟩

/-- C4: given a non-empty parser result, the coordinator step stamps
every new event with the selected format tag and appends them, in
order, after the untouched previously accumulated events; given an empty
result it leaves the collection unchanged and reports that nothing was
loaded. -/
theorem claim_coordinator_stamp_append :
    ∀ (old : List EventoEtiquetado) (nuevos : List Evento) (tipo : String),
      (nuevos ≠ [] →
        menu_ingesta_step old nuevos tipo =
          (old ++ nuevos.map (fun e => ⟨e, tipo⟩), true)) ∧
      (nuevos = [] → menu_ingesta_step old nuevos tipo = (old, false)) := by
  intro old nuevos tipo
  constructor
  · intro hne
    cases nuevos with
    | nil => exact absurd rfl hne
    | cons a l => rfl
  · intro he
    subst he
    rfl

/-- Witness for C4: two syslog-tagged events appended after one
previously accumulated event, each stamped `CSV_Linux`. -/
theorem claim_coordinator_stamp_append_witness :
    menu_ingesta_step [⟨⟨"t0", .str "h0", .str "p0", .str "m0", 1⟩, "SYSLOG"⟩]
      [⟨"t1", .str "h1", .str "p1", .str "m1", 2⟩,
       ⟨"t2", .str "h2", .str "p2", .str "m2", 3⟩] "CSV_Linux" =
      ([⟨⟨"t0", .str "h0", .str "p0", .str "m0", 1⟩, "SYSLOG"⟩,
        ⟨⟨"t1", .str "h1", .str "p1", .str "m1", 2⟩, "CSV_Linux"⟩,
        ⟨⟨"t2", .str "h2", .str "p2", .str "m2", 3⟩, "CSV_Linux"⟩], true) :=
  ((claim_coordinator_stamp_append
      [⟨⟨"t0", .str "h0", .str "p0", .str "m0", 1⟩, "SYSLOG"⟩]
      [⟨"t1", .str "h1", .str "p1", .str "m1", 2⟩,
       ⟨"t2", .str "h2", .str "p2", .str "m2", 3⟩] "CSV_Linux").1 (by decide)).trans
    (by decide)

/-- C5: the empty timestamp is returned empty with no parse attempted,
and any non-empty string that neither parses as ISO-8601 (after the `Z`
substitution) nor matches the `%b %d %H:%M:%S` pattern is returned
verbatim; the function is total, so no exception escapes. -/
theorem claim_timestamp_fallback_identity :
    normalizar_timestamp "" = "" ∧
      ∀ t, t ≠ "" → fromisoformat (pyReplace t "Z" "+00:00") = Option.none →
        strptimeSyslog t = Option.none → normalizar_timestamp t = t := by
  refine ⟨rfl, ?_⟩
  intro t ht h1 h2
  unfold normalizar_timestamp
  rw [if_neg ht, h1, h2]

/-- Witness for C5 at `"hello"`: both parses fail and the input comes
back unchanged. -/
theorem claim_timestamp_fallback_identity_witness :
    ("hello" : String) ≠ "" ∧
      fromisoformat (pyReplace "hello" "Z" "+00:00") = Option.none ∧
      strptimeSyslog "hello" = Option.none ∧
      normalizar_timestamp "hello" = "hello" :=
  ⟨by decide, by decide, by decide,
    claim_timestamp_fallback_identity.2 "hello" (by decide) (by decide) (by decide)⟩

/-- C6: the two parse-success branches re-emit canonical ISO-8601: a
Zulu-suffixed input gains the `+00:00` offset (the trailing `Z` having
been substituted before parsing), and a syslog-style input becomes
ISO-8601 with month 09, day 02, time 17:23:54 and the default year
1900. -/
theorem claim_timestamp_success_branches :
    normalizar_timestamp "2024-01-02T03:04:05Z" = "2024-01-02T03:04:05+00:00" ∧
      normalizar_timestamp "Sep 02 17:23:54" = "1900-09-02T17:23:54" := by decide

/-- C7: the single syslog line parses into exactly one event with the
stated host, process, message and severity 0 — and, in general, every
event the syslog parser produces has severity 0. -/
theorem claim_syslog_line_parse :
    procesar_syslog ["Sep 02 17:23:54 myhost sshd: Accepted password"] =
      ([⟨"1900-09-02T17:23:54", .str "myhost", .str "sshd", .str "Accepted password", 0⟩], 0) ∧
      ∀ lineas e, e ∈ (procesar_syslog lineas).1 → e.severity = 0 := by
  constructor
  · decide
  · intro lineas
    show ∀ e, e ∈ (syslogLoop lineas).1 → e.severity = 0
    induction lineas with
    | nil =>
      intro e he
      simp [syslogLoop] at he
    | cons l rest ih =>
      intro e he
      unfold syslogLoop at he
      split at he
      · rename_i g1 g2 g3 g4 heq
        rcases List.mem_cons.mp he with h1 | h1
        · subst h1
          rfl
        · exact ih e h1
      · exact ih e he

/-- Witness for C7's universal part at a second concrete file. -/
theorem claim_syslog_line_parse_witness :
    (⟨"1900-01-01T00:00:00", .str "h", .str "p", .str "m", 0⟩ : Evento).severity = 0 :=
  claim_syslog_line_parse.2 ["Jan 1 00:00:00 h p: m"]
    ⟨"1900-01-01T00:00:00", .str "h", .str "p", .str "m", 0⟩ (by decide)

/-- C8: without binary-log support the parser returns the empty result
for any file whatsoever, reporting that it never opened it (third
component `false`): the guard returns before the `with Evtx(ruta)`
context is entered. -/
theorem claim_evtx_no_support_empty :
    ∀ records, procesar_evtx false records = ([], 0, false) := fun _ => rfl

/-- C9: with support available, the well-formed record `sampleEvtxXml` —
which carries exactly the `TimeCreated/@SystemTime`, `Computer`,
`Provider/@Name`, `Message` and `Level` data the mapping reads — is NOT
mapped into an event: the very first field's `findtext` raises on the
ElementTree-unsupported attribute path, the record is counted invalid,
and (second conjunct) no record of any file is ever mapped. -/
theorem claim_evtx_mapping_divergence :
    procesar_evtx true [some sampleEvtxXml] = ([], 1, true) ∧
      ∀ records, (procesar_evtx true records).1 = [] := by
  constructor
  · decide
  · intro records
    exact evtxLoop_datos_nil records

/-- C10: a data row shorter than the header fills the missing trailing
columns with the reader's `None`, so host/process/message come out as
`None` (not their `.get` defaults) while the severity still normalizes
to 0; the defaults apply only when the header lacks the column
entirely (third and fourth conjuncts). -/
theorem claim_csv_short_row_none_fill :
    procesar_csv [["timestamp", "host", "process", "message", "severity"],
        ["2024-01-02T03:04:05"]] =
      ([⟨"2024-01-02T03:04:05", PyVal.none, PyVal.none, PyVal.none, 0⟩], 0) ∧
    procesar_csv_windows [["TimeCreated", "Computer", "ProviderName", "Message", "Level"],
        ["x"]] =
      ([⟨"x", PyVal.none, PyVal.none, PyVal.none, 0⟩], 0) ∧
    procesar_csv [["timestamp", "severity"], ["t1", "3"]] =
      ([⟨"t1", .str "", .str "", .str "", 3⟩], 0) ∧
    procesar_csv_windows [["TimeCreated"], ["x"]] =
      ([⟨"x", .str "", .str "unknown", .str "", 0⟩], 0) := by decide

end SocToolkit
